import Mathlib

/-!
# Verification of the Heart-Disease Dashboard data pipeline

Shallow embedding of `src/heart_dashboard.py` (single-file Streamlit app):
the `load_data` cleaning pipeline (lines 33-62) and the sidebar filter
expression `filtered` (lines 88-94), plus the KPI metric rendering
(lines 102-106).

Modelling conventions:
* A pandas cell that may be NaN is an `Option`; `none` is NaN/null.
* The `Smoker`/`HTN`/`Bleeding` columns are `String`s (the code applies
  `.astype(str)` before mapping, so a source NaN arrives as the string
  `"nan"`, which maps to null anyway).
* The `Age` column of the raw CSV is an `AgeCell`: a numeric value, a
  missing value (NaN), or a non-numeric string (which `astype(float)`
  cannot convert and raises on).
* The `Date` column is a `DateCell`: either raw text (as read from CSV)
  or an already-parsed timestamp, so the cleaning transformation can be
  re-applied to its own output (`pd.to_datetime` leaves an
  already-datetime column unchanged).
* Fallible whole-table operations (`astype(float)` raising `ValueError`
  on a non-convertible string) make `load_data` return `Except`.
-/

/-- Python `str.strip` whitespace class (ASCII whitespace). -/
def isPySpace (c : Char) : Bool :=
  c = ' ' || c = '\t' || c = '\n' || c = '\x0d' || c = '\x0b' || c = '\x0c'

/-- Drop leading characters satisfying `isPySpace`. -/
def dropLeadingSpace : List Char → List Char
  | [] => []
  | c :: rest => if isPySpace c then dropLeadingSpace rest else c :: rest

/-- Model of Python `str.strip()`: remove leading and trailing whitespace. -/
def pyStrip (s : String) : String :=
  ⟨(dropLeadingSpace (dropLeadingSpace s.data).reverse).reverse⟩

/-- ASCII lower-casing of one character, as Python `str.lower()` does on ASCII. -/
def charLower (c : Char) : Char :=
  if 'A' ≤ c ∧ c ≤ 'Z' then Char.ofNat (c.toNat + 32) else c

/-- Model of Python `str.lower()`. -/
def pyLower (s : String) : String :=
  ⟨s.data.map charLower⟩

/-- The normalisation the code applies before the yes/no map:
`df[c].astype(str).str.strip().str.lower()`. -/
def normYN (s : String) : String := pyLower (pyStrip s)

/-- The binary yes/no map `yn = {"yes": 1, "no": 0}`; `Series.map` sends any
other value to NaN (`none`). -/
def ynMap (s : String) : Option Nat :=
  if s = "yes" then some 1 else if s = "no" then some 0 else none

/-- Decimal-digit list of a positive `Nat` (most significant first); fuel-based
structural recursion so it reduces in the kernel. -/
def natDigits : Nat → Nat → List Char
  | 0, _ => []
  | _ + 1, 0 => []
  | fuel + 1, n + 1 =>
      natDigits fuel ((n + 1) / 10) ++ [Char.ofNat (48 + (n + 1) % 10)]

/-- Decimal representation of a `Nat`. -/
def natRepr (n : Nat) : String :=
  if n = 0 then "0" else ⟨natDigits (n + 1) n⟩

/-- Split a character list on `'.'` separators (model of the `%d.%m.%Y`
field structure). -/
def splitDots (acc : List Char) : List Char → List (List Char)
  | [] => [acc.reverse]
  | c :: rest =>
      if c = '.' then acc.reverse :: splitDots [] rest
      else splitDots (c :: acc) rest

/-- Numeric value of a non-empty all-digit character list, else `none`. -/
def digitsVal (acc : Nat) : List Char → Option Nat
  | [] => some acc
  | c :: rest =>
      if c.isDigit then digitsVal (acc * 10 + (c.toNat - 48)) rest else none

/-- Value of one date field: non-empty and all digits. -/
def fieldVal (cs : List Char) : Option Nat :=
  match cs with
  | [] => none
  | _ => digitsVal 0 cs

/-- Day count of a month (Gregorian), for calendar validation as
`pd.to_datetime` performs it. -/
def daysInMonth (m y : Nat) : Nat :=
  if m = 2 then
    if y % 4 = 0 ∧ (y % 100 ≠ 0 ∨ y % 400 = 0) then 29 else 28
  else if m = 4 ∨ m = 6 ∨ m = 9 ∨ m = 11 then 30
  else 31

/-- Model of `pd.to_datetime(s, format="%d.%m.%Y", errors="coerce")` on one
text cell: exactly three dot-separated digit fields forming a valid calendar
date, else NaT (`none`).  The result is `(day, month, year)`. -/
def parseDate (s : String) : Option (Nat × Nat × Nat) :=
  match splitDots [] s.data with
  | [ds, ms, ys] =>
      match fieldVal ds, fieldVal ms, fieldVal ys with
      | some d, some m, some y =>
          if 1 ≤ m ∧ m ≤ 12 ∧ 1 ≤ d ∧ d ≤ daysInMonth m y then
            some (d, m, y)
          else none
      | _, _, _ => none
  | _ => none

/-- A `Date` cell: raw text as read from CSV, or an already-parsed
timestamp `(day, month, year)`. -/
inductive DateCell where
  | text (s : String)
  | stamp (d m y : Nat)
deriving DecidableEq

/-- An `Age` cell of the raw table: numeric, missing (NaN), or a
non-numeric string that `astype(float)` cannot convert. -/
inductive AgeCell where
  | num (q : ℚ)
  | missing
  | nonNumeric (s : String)
deriving DecidableEq

/-- One row of the table.  Raw rows leave the derived columns `none`;
`load_data` (re)computes them. -/
structure Row where
  date : DateCell
  sex : Option String
  age : AgeCell
  residence : Option String
  smoker : String
  htn : String
  bleeding : String
  smoker_Num : Option Nat := none
  htn_Num : Option Nat := none
  bleeding_Num : Option Nat := none
  year : Option Nat := none
  month : Option String := none
  ageBin : Option String := none
deriving DecidableEq

/-- `pd.to_datetime(df["Date"], format="%d.%m.%Y", errors="coerce")` on one
cell: text is parsed (NaT on failure); an already-datetime value passes
through unchanged. -/
def toDatetime : DateCell → Option (Nat × Nat × Nat)
  | DateCell.text s => parseDate s
  | DateCell.stamp d m y => some (d, m, y)

/-- `df["Age"].astype(float)` raises exactly on a non-convertible string. -/
def isBadAge : AgeCell → Bool
  | AgeCell.nonNumeric _ => true
  | _ => false

/-- The numeric view of an `Age` cell (NaN on missing or non-numeric). -/
def ageQ : AgeCell → Option ℚ
  | AgeCell.num q => some q
  | _ => none

/-- `dropna` keeps an `Age` cell iff it is not null; a non-numeric string is
an object, not null, so only `missing` is dropped. -/
def ageNotNull : AgeCell → Bool
  | AgeCell.missing => false
  | _ => true

/-- `df["Date"].dt.year` of a cell (always a stamp after the date drop). -/
def yearOf : DateCell → Option Nat
  | DateCell.stamp _ _ y => some y
  | DateCell.text _ => none

/-- `df["Date"].dt.to_period("M").astype(str)`: the `"YYYY-MM"` label. -/
def monthOf : DateCell → Option String
  | DateCell.stamp _ m y =>
      some (natRepr y ++ "-" ++ (if m < 10 then "0" ++ natRepr m else natRepr m))
  | DateCell.text _ => none

/-- `pd.cut(age, bins=[0, 49, 59, 69, 79, 120], labels=[...])`: bins are
left-open right-closed; values outside `(0, 120]` get NaN. -/
def ageCut : AgeCell → Option String
  | AgeCell.num q =>
      if 0 < q ∧ q ≤ 49 then some "<50"
      else if 49 < q ∧ q ≤ 59 then some "50-59"
      else if 59 < q ∧ q ≤ 69 then some "60-69"
      else if 69 < q ∧ q ≤ 79 then some "70-79"
      else if 79 < q ∧ q ≤ 120 then some "80+"
      else none
  | _ => none

/-- Date step: parse `Date`, then `dropna(subset=["Date"])`. -/
def dateStep (r : Row) : Option Row :=
  (toDatetime r.date).map fun dmy =>
    { r with date := DateCell.stamp dmy.1 dmy.2.1 dmy.2.2 }

/-- Binary-map step: derive the three `_Num` columns from the trimmed,
lowercased text. -/
def numStep (r : Row) : Row :=
  { r with
    smoker_Num := ynMap (normYN r.smoker)
    htn_Num := ynMap (normYN r.htn)
    bleeding_Num := ynMap (normYN r.bleeding) }

/-- Helper-column step: derive `Year`, `Month`, `AgeBin`. -/
def deriveStep (r : Row) : Row :=
  { r with
    year := yearOf r.date
    month := monthOf r.date
    ageBin := ageCut r.age }

/-- The final completeness filter,
`dropna(subset=["Sex","Age","Residence","Smoker_Num","HTN_Num","Bleeding_Num"])`. -/
def keepRow (r : Row) : Bool :=
  r.sex.isSome && ageNotNull r.age && r.residence.isSome &&
  r.smoker_Num.isSome && r.htn_Num.isSome && r.bleeding_Num.isSome

/-- `load_data` of `src/heart_dashboard.py` (lines 33-62), after
`pd.read_csv`: parse dates and drop unparseable ones; derive the `_Num`
columns; derive `Year`/`Month`/`AgeBin` (where `df["Age"].astype(float)`
raises `ValueError` if any remaining `Age` is a non-convertible string);
finally drop rows incomplete in the six listed columns. -/
def load_data (t : List Row) : Except String (List Row) :=
  if ((t.filterMap dateStep).map numStep).any (fun r => isBadAge r.age) then
    Except.error "ValueError: could not convert string to float"
  else
    Except.ok ((((t.filterMap dateStep).map numStep).map deriveStep).filter keepRow)

example : normYN " Yes " = "yes" := by decide
example : parseDate "01.01.2020" = some (1, 1, 2020) := by decide
example : parseDate "bad-date" = none := by decide
example : natRepr 2020 = "2020" := by decide

/-!
## Filter engine and KPI header

Sidebar filter selections and the `filtered` expression (lines 88-94),
and the KPI metric strings (lines 102-106).
-/

/-- The sidebar filter state: year-range slider, residence / gender /
smoker multiselects, age-range slider.  The code has no HTN control. -/
structure FilterSel where
  yFrom : Nat
  yTo : Nat
  areaSet : List String
  genderSet : List String
  smokeSet : List String
  aFrom : ℚ
  aTo : ℚ
deriving DecidableEq

/-- `Series.between(lo, hi)` on an integer column; NaN compares false. -/
def betweenN (x : Option Nat) (lo hi : Nat) : Bool :=
  match x with
  | some v => decide (lo ≤ v) && decide (v ≤ hi)
  | none => false

/-- `Series.between(lo, hi)` on a numeric column; NaN compares false. -/
def betweenQ (x : Option ℚ) (lo hi : ℚ) : Bool :=
  match x with
  | some v => decide (lo ≤ v) && decide (v ≤ hi)
  | none => false

/-- `Series.isin(values)` on a text column; NaN is in no set. -/
def inSet (x : Option String) (s : List String) : Bool :=
  match x with
  | some v => s.contains v
  | none => false

/-- The row predicate of the `filtered` expression (lines 88-94):
`Year.between & Residence.isin & Sex.isin & Smoker.isin & Age.between`.
Note the `Smoker` test is on the original text column, and there is no
HTN conjunct. -/
def filterPred (s : FilterSel) (r : Row) : Bool :=
  betweenN r.year s.yFrom s.yTo &&
  inSet r.residence s.areaSet &&
  inSet r.sex s.genderSet &&
  s.smokeSet.contains r.smoker &&
  betweenQ (ageQ r.age) s.aFrom s.aTo

/-- `filtered = df[...]`: boolean-mask row selection, order preserving. -/
def filterRows (s : FilterSel) (rows : List Row) : List Row :=
  rows.filter (filterPred s)

/-- `Series.mean()`: NaN (`none`) on an empty series. -/
def seriesMean (xs : List ℚ) : Option ℚ :=
  if xs.length = 0 then none else some (xs.sum / (xs.length : ℚ))

/-- Round to nearest integer, ties to even, as Python float formatting does. -/
def roundHalfEven (q : ℚ) : ℤ :=
  let f := ⌊q⌋
  let frac := q - f
  if frac < 1 / 2 then f
  else if 1 / 2 < frac then f + 1
  else if f % 2 = 0 then f else f + 1

/-- Python `f"{v:0.1f}"` on a finite value. -/
def fmtFixed1 (q : ℚ) : String :=
  let n := roundHalfEven (q * 10)
  let a := n.natAbs
  (if n < 0 then "-" else "") ++ natRepr (a / 10) ++ "." ++ natRepr (a % 10)

/-- Python `f"{v:0.1f}"` on a possibly-NaN value: formatting the float NaN
produces the literal string `"nan"`. -/
def fmtMetric : Option ℚ → String
  | none => "nan"
  | some v => fmtFixed1 v

/-- The non-null values of a `_Num` column as rationals (`Series.mean`
skips NaN). -/
def numSeries (proj : Row → Option Nat) (rows : List Row) : List ℚ :=
  rows.filterMap fun r => (proj r).map fun n => (n : ℚ)

/-- KPI `k2`: `f"{filtered['Smoker_Num'].mean()*100:0.1f}"`. -/
def kpiSmokersPct (rows : List Row) : String :=
  fmtMetric ((seriesMean (numSeries Row.smoker_Num rows)).map fun m => m * 100)

/-- KPI `k3`: `f"{filtered['HTN_Num'].mean()*100:0.1f}"`. -/
def kpiHTNPct (rows : List Row) : String :=
  fmtMetric ((seriesMean (numSeries Row.htn_Num rows)).map fun m => m * 100)

/-- KPI `k4`: `f"{filtered['Bleeding_Num'].mean()*100:0.1f}"`. -/
def kpiBleedingPct (rows : List Row) : String :=
  fmtMetric ((seriesMean (numSeries Row.bleeding_Num rows)).map fun m => m * 100)

/-!
## Concrete scenario rows (spec §8 concrete scenario and counterexamples)
-/

/-- Raw row 1 of the spec's concrete scenario. -/
def rawRow1 : Row :=
  { date := DateCell.text "01.01.2020", sex := some "M", age := AgeCell.num 55,
    residence := some "North", smoker := " Yes ", htn := "no", bleeding := "No" }

/-- Raw row 2 of the spec's concrete scenario (unparseable date). -/
def rawRow2 : Row :=
  { date := DateCell.text "bad-date", sex := some "F", age := AgeCell.num 60,
    residence := some "South", smoker := "no", htn := "yes", bleeding := "yes" }

/-- The cleaned form of `rawRow1`. -/
def cleanRow1 : Row :=
  { date := DateCell.stamp 1 1 2020, sex := some "M", age := AgeCell.num 55,
    residence := some "North", smoker := " Yes ", htn := "no", bleeding := "No",
    smoker_Num := some 1, htn_Num := some 0, bleeding_Num := some 0,
    year := some 2020, month := some "2020-01", ageBin := some "50-59" }

example : load_data [rawRow1, rawRow2] = Except.ok [cleanRow1] := rfl

/-!
## Structural lemmas about `load_data`
-/

/-- Characterisation of a row of a cleaned table: parsed date stamp, each
derived column equal to its recomputation from the stored columns, the
completeness filter satisfied, and no non-numeric age. -/
def cleanRowProps (r : Row) : Prop :=
  (∃ d m y, r.date = DateCell.stamp d m y) ∧
  r.smoker_Num = ynMap (normYN r.smoker) ∧
  r.htn_Num = ynMap (normYN r.htn) ∧
  r.bleeding_Num = ynMap (normYN r.bleeding) ∧
  r.year = yearOf r.date ∧
  r.month = monthOf r.date ∧
  r.ageBin = ageCut r.age ∧
  keepRow r = true ∧
  isBadAge r.age = false

theorem load_data_ok_iff (t u : List Row) :
    load_data t = Except.ok u ↔
      (((t.filterMap dateStep).map numStep).any (fun r => isBadAge r.age)) = false ∧
      u = (((t.filterMap dateStep).map numStep).map deriveStep).filter keepRow := by
  unfold load_data
  split
  · rename_i hc
    simp_all
  · rename_i hc
    simp only [Bool.not_eq_true] at hc
    simp [hc, eq_comm]

/-- Every row of a successfully cleaned table satisfies `cleanRowProps`. -/
theorem mem_load_data {t u : List Row} (h : load_data t = Except.ok u)
    {r : Row} (hr : r ∈ u) : cleanRowProps r := by
  rw [load_data_ok_iff] at h
  obtain ⟨hany, rfl⟩ := h
  rw [List.mem_filter] at hr
  obtain ⟨hr, hkeep⟩ := hr
  rw [List.mem_map] at hr
  obtain ⟨r2, hr2, rfl⟩ := hr
  have hbad : isBadAge r2.age = false := by
    rw [List.any_eq_false] at hany
    simpa using hany r2 hr2
  rw [List.mem_map] at hr2
  obtain ⟨r1, hr1, rfl⟩ := hr2
  rw [List.mem_filterMap] at hr1
  obtain ⟨r0, _, hstep⟩ := hr1
  unfold dateStep at hstep
  rw [Option.map_eq_some'] at hstep
  obtain ⟨dmy, _, rfl⟩ := hstep
  refine ⟨⟨dmy.1, dmy.2.1, dmy.2.2, rfl⟩, rfl, rfl, rfl, rfl, rfl, ?_, hkeep, ?_⟩
  · simp [deriveStep, numStep]
  · simpa [deriveStep, numStep] using hbad

theorem row_update_date {r : Row} {c : DateCell} (h : r.date = c) :
    ({ r with date := c } : Row) = r := by
  rw [← h]

/-- On a row satisfying the date part of `cleanRowProps`, the date step is
the identity (an already-datetime column passes through `to_datetime`). -/
theorem dateStep_clean {r : Row} (h : ∃ d m y, r.date = DateCell.stamp d m y) :
    dateStep r = some r := by
  obtain ⟨d, m, y, hd⟩ := h
  unfold dateStep
  rw [hd]
  simpa [toDatetime] using row_update_date hd

/-- On a row whose `_Num` columns already equal their recomputation, the
binary-map step is the identity. -/
theorem numStep_clean {r : Row}
    (h1 : r.smoker_Num = ynMap (normYN r.smoker))
    (h2 : r.htn_Num = ynMap (normYN r.htn))
    (h3 : r.bleeding_Num = ynMap (normYN r.bleeding)) :
    numStep r = r := by
  unfold numStep
  rw [← h1, ← h2, ← h3]

/-- On a row whose helper columns already equal their recomputation, the
helper-column step is the identity. -/
theorem deriveStep_clean {r : Row}
    (h1 : r.year = yearOf r.date)
    (h2 : r.month = monthOf r.date)
    (h3 : r.ageBin = ageCut r.age) :
    deriveStep r = r := by
  unfold deriveStep
  rw [← h1, ← h2, ← h3]

theorem filterMap_id_of_forall {f : Row → Option Row} {l : List Row}
    (h : ∀ r ∈ l, f r = some r) : l.filterMap f = l := by
  induction l with
  | nil => rfl
  | cons a as ih =>
    rw [List.filterMap_cons, h a (List.mem_cons_self a as),
      ih fun r hr => h r (List.mem_cons_of_mem a hr)]

theorem map_id_of_forall {f : Row → Row} {l : List Row}
    (h : ∀ r ∈ l, f r = r) : l.map f = l := by
  induction l with
  | nil => rfl
  | cons a as ih =>
    rw [List.map_cons, h a (List.mem_cons_self a as),
      ih fun r hr => h r (List.mem_cons_of_mem a hr)]

/-- A table all of whose rows satisfy `cleanRowProps` is a fixed point of
`load_data`. -/
theorem load_data_fixed {l : List Row} (h : ∀ r ∈ l, cleanRowProps r) :
    load_data l = Except.ok l := by
  have hdate : l.filterMap dateStep = l :=
    filterMap_id_of_forall fun r hr => dateStep_clean (h r hr).1
  have hnum : l.map numStep = l :=
    map_id_of_forall fun r hr =>
      numStep_clean (h r hr).2.1 (h r hr).2.2.1 (h r hr).2.2.2.1
  have hderive : l.map deriveStep = l :=
    map_id_of_forall fun r hr =>
      deriveStep_clean (h r hr).2.2.2.2.1 (h r hr).2.2.2.2.2.1
        (h r hr).2.2.2.2.2.2.1
  have hany : (l.any fun r => isBadAge r.age) = false := by
    rw [List.any_eq_false]
    intro r hr
    simp [(h r hr).2.2.2.2.2.2.2.2]
  have hfilter : l.filter keepRow = l :=
    List.filter_eq_self.mpr fun r hr => (h r hr).2.2.2.2.2.2.2.1
  rw [load_data_ok_iff, hdate, hnum, hderive, hany, hfilter]
  exact ⟨rfl, rfl⟩

/-!
## Claim theorems
-/

/-- C7: cleaning the spec's two-row concrete scenario drops row 2 (its date
`"bad-date"` does not parse) and yields exactly row 1, with `Year = 2020`,
`Smoker_Num = 1`, `HTN_Num = 0`, `Bleeding_Num = 0`. -/
theorem concrete_scenario_clean :
    load_data [rawRow1, rawRow2] = Except.ok [cleanRow1] ∧
    cleanRow1.year = some 2020 ∧ cleanRow1.smoker_Num = some 1 ∧
    cleanRow1.htn_Num = some 0 ∧ cleanRow1.bleeding_Num = some 0 :=
  ⟨rfl, rfl, rfl, rfl, rfl⟩

/-- C8: cleaning is idempotent — applying `load_data` to its own output
returns that output unchanged. -/
theorem load_data_idempotent (t u : List Row) (h : load_data t = Except.ok u) :
    load_data u = Except.ok u :=
  load_data_fixed fun _ hr => mem_load_data h hr

theorem load_data_idempotent_witness :
    load_data [cleanRow1] = Except.ok [cleanRow1] :=
  load_data_idempotent [rawRow1, rawRow2] [cleanRow1] rfl

/-- A kept, non-error age cell is numeric. -/
theorem age_num_of_kept {a : AgeCell} (h1 : ageNotNull a = true)
    (h2 : isBadAge a = false) : ∃ q, a = AgeCell.num q := by
  cases a with
  | num q => exact ⟨q, rfl⟩
  | missing => simp [ageNotNull] at h1
  | nonNumeric s => simp [isBadAge] at h2

/-- The six completeness conjuncts of `keepRow`, unpacked. -/
theorem keepRow_fields {r : Row} (h : keepRow r = true) :
    r.sex.isSome = true ∧ ageNotNull r.age = true ∧
    r.residence.isSome = true ∧ r.smoker_Num.isSome = true ∧
    r.htn_Num.isSome = true ∧ r.bleeding_Num.isSome = true := by
  unfold keepRow at h
  simp only [Bool.and_eq_true, and_assoc] at h
  exact h

/-- C4: every row of a successfully cleaned table is non-null in `Sex`,
`Age`, `Residence`, `Smoker_Num`, `HTN_Num`, `Bleeding_Num` and `Year`
(and `Age` is moreover numeric). -/
theorem clean_table_null_safety (t u : List Row) (h : load_data t = Except.ok u)
    (r : Row) (hr : r ∈ u) :
    r.sex.isSome = true ∧ (∃ q, r.age = AgeCell.num q) ∧
    r.residence.isSome = true ∧ r.smoker_Num.isSome = true ∧
    r.htn_Num.isSome = true ∧ r.bleeding_Num.isSome = true ∧
    r.year.isSome = true := by
  obtain ⟨⟨d, m, y, hd⟩, _, _, _, hy, _, _, hkeep, hbad⟩ := mem_load_data h hr
  obtain ⟨hsex, hage, hres, hs, hh, hb⟩ := keepRow_fields hkeep
  refine ⟨hsex, age_num_of_kept hage hbad, hres, hs, hh, hb, ?_⟩
  rw [hy, hd]
  rfl

theorem clean_table_null_safety_witness :
    cleanRow1.sex.isSome = true ∧ (∃ q, cleanRow1.age = AgeCell.num q) ∧
    cleanRow1.residence.isSome = true ∧ cleanRow1.smoker_Num.isSome = true ∧
    cleanRow1.htn_Num.isSome = true ∧ cleanRow1.bleeding_Num.isSome = true ∧
    cleanRow1.year.isSome = true :=
  clean_table_null_safety [rawRow1, rawRow2] [cleanRow1] rfl cleanRow1
    (List.mem_singleton.mpr rfl)

/-- The yes/no map only succeeds on the two normalised literals. -/
theorem ynMap_cases {s : String} {n : Nat} (h : ynMap s = some n) :
    (s = "yes" ∧ n = 1) ∨ (s = "no" ∧ n = 0) := by
  unfold ynMap at h
  split at h
  · rename_i h1
    exact Or.inl ⟨h1, by simpa using h.symm⟩
  · split at h
    · rename_i h2
      exact Or.inr ⟨h2, by simpa using h.symm⟩
    · exact absurd h (by simp)

/-- Full characterisation of a populated `_Num` cell. -/
theorem ynMap_iff_of_isSome {s : String} {v : Option Nat}
    (hv : v = ynMap s) (hs : v.isSome = true) :
    (v = some 1 ↔ s = "yes") ∧ (v = some 0 ↔ s = "no") ∧
    (s = "yes" ∨ s = "no") := by
  obtain ⟨n, hn⟩ := Option.isSome_iff_exists.mp hs
  rcases ynMap_cases (hv.symm.trans hn) with ⟨h1, h2⟩ | ⟨h1, h2⟩
  · subst h2; subst h1
    rw [hn]
    refine ⟨by simp, ?_, Or.inl rfl⟩
    constructor
    · intro hc; exact absurd hc (by simp)
    · intro hc; exact absurd hc (by decide)
  · subst h2; subst h1
    rw [hn]
    refine ⟨?_, by simp, Or.inr rfl⟩
    constructor
    · intro hc; exact absurd hc (by simp)
    · intro hc; exact absurd hc (by decide)

/-- C3: for every row of the cleaned table and each of the three binary
fields, the `_Num` value is `1` iff the trimmed-lowercased text is `"yes"`,
`0` iff it is `"no"`, and the normalised text is always one of the two —
any row with a different value got a null `_Num` and was dropped. -/
theorem binary_map_correct (t u : List Row) (h : load_data t = Except.ok u)
    (r : Row) (hr : r ∈ u) :
    ((r.smoker_Num = some 1 ↔ normYN r.smoker = "yes") ∧
     (r.smoker_Num = some 0 ↔ normYN r.smoker = "no") ∧
     (normYN r.smoker = "yes" ∨ normYN r.smoker = "no")) ∧
    ((r.htn_Num = some 1 ↔ normYN r.htn = "yes") ∧
     (r.htn_Num = some 0 ↔ normYN r.htn = "no") ∧
     (normYN r.htn = "yes" ∨ normYN r.htn = "no")) ∧
    ((r.bleeding_Num = some 1 ↔ normYN r.bleeding = "yes") ∧
     (r.bleeding_Num = some 0 ↔ normYN r.bleeding = "no") ∧
     (normYN r.bleeding = "yes" ∨ normYN r.bleeding = "no")) := by
  obtain ⟨_, hs, hh, hb, _, _, _, hkeep, _⟩ := mem_load_data h hr
  obtain ⟨_, _, _, hs2, hh2, hb2⟩ := keepRow_fields hkeep
  exact ⟨ynMap_iff_of_isSome hs hs2, ynMap_iff_of_isSome hh hh2,
    ynMap_iff_of_isSome hb hb2⟩

theorem binary_map_correct_witness :
    ((cleanRow1.smoker_Num = some 1 ↔ normYN cleanRow1.smoker = "yes") ∧
     (cleanRow1.smoker_Num = some 0 ↔ normYN cleanRow1.smoker = "no") ∧
     (normYN cleanRow1.smoker = "yes" ∨ normYN cleanRow1.smoker = "no")) ∧
    ((cleanRow1.htn_Num = some 1 ↔ normYN cleanRow1.htn = "yes") ∧
     (cleanRow1.htn_Num = some 0 ↔ normYN cleanRow1.htn = "no") ∧
     (normYN cleanRow1.htn = "yes" ∨ normYN cleanRow1.htn = "no")) ∧
    ((cleanRow1.bleeding_Num = some 1 ↔ normYN cleanRow1.bleeding = "yes") ∧
     (cleanRow1.bleeding_Num = some 0 ↔ normYN cleanRow1.bleeding = "no") ∧
     (normYN cleanRow1.bleeding = "yes" ∨ normYN cleanRow1.bleeding = "no")) :=
  binary_map_correct [rawRow1, rawRow2] [cleanRow1] rfl cleanRow1
    (List.mem_singleton.mpr rfl)

/-- A raw row whose date parses but whose `Age` is the non-numeric string
`"abc"`. -/
def badAgeRaw : Row :=
  { date := DateCell.text "02.01.2020", sex := some "F",
    age := AgeCell.nonNumeric "abc", residence := some "South",
    smoker := "no", htn := "no", bleeding := "no" }

/-- C6 counterexample: `Age` is never coerced-with-null.  On a table holding
a non-numeric `Age` (in a row whose date parses), the cleaner raises
`ValueError` from `astype(float)` and produces no table at all, instead of
nulling and dropping the row; without that row the same table cleans
fine. -/
theorem age_not_coerced_counterexample :
    load_data [rawRow1, badAgeRaw] =
      Except.error "ValueError: could not convert string to float" ∧
    load_data [rawRow1] = Except.ok [cleanRow1] :=
  ⟨rfl, rfl⟩

/-- C6 amended: cleaning does not coerce `Age`; a non-numeric `Age` value on
any row surviving the date filter aborts `load_data` with `ValueError`,
while rows with a missing `Age` are dropped by the completeness filter, so
whenever cleaning succeeds every cleaned row has a numeric `Age`. -/
theorem age_numeric_when_ok (t : List Row) :
    (∀ u, load_data t = Except.ok u →
      ∀ r ∈ u, ∃ q, r.age = AgeCell.num q) ∧
    ((∃ r ∈ t, (toDatetime r.date).isSome = true ∧ isBadAge r.age = true) →
      load_data t = Except.error "ValueError: could not convert string to float") := by
  constructor
  · intro u h r hr
    obtain ⟨_, _, _, _, _, _, _, hkeep, hbad⟩ := mem_load_data h hr
    exact age_num_of_kept (keepRow_fields hkeep).2.1 hbad
  · rintro ⟨r, hrt, hd, hbad⟩
    obtain ⟨dmy, hdmy⟩ := Option.isSome_iff_exists.mp hd
    have hcond : (((t.filterMap dateStep).map numStep).any
        (fun x => isBadAge x.age)) = true := by
      rw [List.any_eq_true]
      refine ⟨numStep { r with date := DateCell.stamp dmy.1 dmy.2.1 dmy.2.2 },
        List.mem_map_of_mem _ ?_, ?_⟩
      · exact List.mem_filterMap.mpr ⟨r, hrt, by rw [dateStep, hdmy]; rfl⟩
      · simpa [numStep] using hbad
    unfold load_data
    rw [if_pos hcond]

theorem age_numeric_when_ok_witness :
    (∃ q, cleanRow1.age = AgeCell.num q) ∧
    load_data [rawRow1, badAgeRaw] =
      Except.error "ValueError: could not convert string to float" :=
  ⟨(age_numeric_when_ok [rawRow1]).1 [cleanRow1] rfl cleanRow1
      (List.mem_singleton.mpr rfl),
    (age_numeric_when_ok [rawRow1, badAgeRaw]).2
      ⟨badAgeRaw, by simp, by decide, rfl⟩⟩

/-- A raw row with a valid date and an `Age` of 130, outside `(0, 120]`. -/
def oldAgeRaw : Row :=
  { date := DateCell.text "05.06.2019", sex := some "F",
    age := AgeCell.num 130, residence := some "East",
    smoker := "no", htn := "no", bleeding := "no" }

/-- The cleaned form of `oldAgeRaw`: retained, with a null `AgeBin`. -/
def oldAgeClean : Row :=
  { date := DateCell.stamp 5 6 2019, sex := some "F",
    age := AgeCell.num 130, residence := some "East",
    smoker := "no", htn := "no", bleeding := "no",
    smoker_Num := some 0, htn_Num := some 0, bleeding_Num := some 0,
    year := some 2019, month := some "2019-06", ageBin := none }

/-- C10: an out-of-range `Age` yields a null `AgeBin` but never drops the
row — `AgeBin` is not in the completeness subset.  Universally, any cleaned
row whose numeric age lies outside `(0, 120]` has `ageBin = none`; and
concretely the age-130 row survives cleaning with a null `AgeBin` while all
seven required columns are populated. -/
theorem ageBin_null_row_kept :
    (∀ t u, load_data t = Except.ok u → ∀ r ∈ u, ∀ q : ℚ,
      r.age = AgeCell.num q → (q ≤ 0 ∨ 120 < q) → r.ageBin = none) ∧
    (load_data [oldAgeRaw] = Except.ok [oldAgeClean] ∧
      oldAgeClean.age = AgeCell.num 130 ∧ oldAgeClean.ageBin = none ∧
      keepRow oldAgeClean = true ∧ oldAgeClean.year = some 2019) := by
  constructor
  · intro t u h r hr q hq hout
    have hbin := (mem_load_data h hr).2.2.2.2.2.2.1
    rw [hbin, hq]
    simp only [ageCut]
    split_ifs with h1 h2 h3 h4 h5
    · exfalso; rcases hout with hc | hc <;> linarith [h1.1, h1.2]
    · exfalso; rcases hout with hc | hc <;> linarith [h2.1, h2.2]
    · exfalso; rcases hout with hc | hc <;> linarith [h3.1, h3.2]
    · exfalso; rcases hout with hc | hc <;> linarith [h4.1, h4.2]
    · exfalso; rcases hout with hc | hc <;> linarith [h5.1, h5.2]
    · rfl
  · exact ⟨rfl, rfl, rfl, rfl, rfl⟩

theorem ageBin_null_row_kept_witness : oldAgeClean.ageBin = none :=
  ageBin_null_row_kept.1 [oldAgeRaw] [oldAgeClean] rfl oldAgeClean
    (List.mem_singleton.mpr rfl) 130 rfl (Or.inr (by norm_num))

/-- C5 counterexample: the cleaned table stores the original `Smoker` text
`" Yes "` untrimmed (it differs from its trimmed form), and under the
code's own full smoker options `["yes", "no"]` the row matches no filter
category at all. -/
theorem text_untrimmed_counterexample :
    load_data [rawRow1] = Except.ok [cleanRow1] ∧
    cleanRow1.smoker = " Yes " ∧
    pyStrip cleanRow1.smoker ≠ cleanRow1.smoker ∧
    filterRows ⟨2020, 2020, ["North"], ["M"], ["yes", "no"], 0, 120⟩
      [cleanRow1] = [] :=
  ⟨rfl, rfl, by decide, rfl⟩

/-- C5 amended: the cleaner stores every categorical text field verbatim
from the source row — no trimming — and filter membership is evaluated
against these raw stored values, so values differing only in surrounding
whitespace remain distinct filter categories. -/
theorem text_fields_stored_verbatim (t u : List Row)
    (h : load_data t = Except.ok u) (r : Row) (hr : r ∈ u) :
    ∃ r0 ∈ t, r.sex = r0.sex ∧ r.residence = r0.residence ∧
      r.smoker = r0.smoker ∧ r.htn = r0.htn ∧ r.bleeding = r0.bleeding ∧
      r.age = r0.age := by
  rw [load_data_ok_iff] at h
  obtain ⟨_, rfl⟩ := h
  rw [List.mem_filter] at hr
  obtain ⟨hr, _⟩ := hr
  rw [List.mem_map] at hr
  obtain ⟨r2, hr2, rfl⟩ := hr
  rw [List.mem_map] at hr2
  obtain ⟨r1, hr1, rfl⟩ := hr2
  rw [List.mem_filterMap] at hr1
  obtain ⟨r0, hr0, hstep⟩ := hr1
  unfold dateStep at hstep
  rw [Option.map_eq_some'] at hstep
  obtain ⟨dmy, _, rfl⟩ := hstep
  exact ⟨r0, hr0, rfl, rfl, rfl, rfl, rfl, rfl⟩

theorem text_fields_stored_verbatim_witness :
    ∃ r0 ∈ [rawRow1, rawRow2], cleanRow1.sex = r0.sex ∧
      cleanRow1.residence = r0.residence ∧ cleanRow1.smoker = r0.smoker ∧
      cleanRow1.htn = r0.htn ∧ cleanRow1.bleeding = r0.bleeding ∧
      cleanRow1.age = r0.age :=
  text_fields_stored_verbatim [rawRow1, rawRow2] [cleanRow1] rfl cleanRow1
    (List.mem_singleton.mpr rfl)

/-- A raw row whose text fields are already exactly the filter literals. -/
def plainRaw : Row :=
  { date := DateCell.text "02.03.2021", sex := some "F",
    age := AgeCell.num 60, residence := some "South",
    smoker := "yes", htn := "no", bleeding := "no" }

/-- The cleaned form of `plainRaw`. -/
def plainClean : Row :=
  { date := DateCell.stamp 2 3 2021, sex := some "F",
    age := AgeCell.num 60, residence := some "South",
    smoker := "yes", htn := "no", bleeding := "no",
    smoker_Num := some 1, htn_Num := some 0, bleeding_Num := some 0,
    year := some 2021, month := some "2021-03", ageBin := some "60-69" }

/-- A filter selection matching `plainClean` on all five code dimensions. -/
def plainSel : FilterSel := ⟨2021, 2021, ["South"], ["F"], ["yes"], 0, 120⟩

/-- Modelled from the claim: the six-dimension row-membership predicate C1
asserts, including an `HTN ∈ htn_set` conjunct. -/
def claimFilterMem (s : FilterSel) (htnSet : List String) (r : Row) : Prop :=
  (∃ y, r.year = some y ∧ s.yFrom ≤ y ∧ y ≤ s.yTo) ∧
  (∃ a, ageQ r.age = some a ∧ s.aFrom ≤ a ∧ a ≤ s.aTo) ∧
  (∃ v, r.residence = some v ∧ v ∈ s.areaSet) ∧
  (∃ g, r.sex = some g ∧ g ∈ s.genderSet) ∧
  r.smoker ∈ s.smokeSet ∧
  r.htn ∈ htnSet

/-- C1 counterexample: a cleaned row appears in the code's filtered result
even though its `HTN` value `"no"` is not in the chosen `htn_set = {"yes"}`
— the code's filter has no HTN dimension, refuting the claimed
six-dimension iff. -/
theorem filter_no_htn_counterexample :
    load_data [plainRaw] = Except.ok [plainClean] ∧
    plainClean ∈ filterRows plainSel [plainClean] ∧
    ¬ claimFilterMem plainSel ["yes"] plainClean := by
  refine ⟨rfl, by decide, fun hmem => ?_⟩
  exact absurd hmem.2.2.2.2.2 (by decide)

theorem betweenN_iff (x : Option Nat) (lo hi : Nat) :
    betweenN x lo hi = true ↔ ∃ v, x = some v ∧ lo ≤ v ∧ v ≤ hi := by
  cases x <;> simp [betweenN]

theorem betweenQ_iff (x : Option ℚ) (lo hi : ℚ) :
    betweenQ x lo hi = true ↔ ∃ v, x = some v ∧ lo ≤ v ∧ v ≤ hi := by
  cases x <;> simp [betweenQ]

theorem inSet_iff (x : Option String) (s : List String) :
    inSet x s = true ↔ ∃ v, x = some v ∧ v ∈ s := by
  cases x <;> simp [inSet, List.contains]

/-- C1 amended: row membership in the filtered result is the conjunction of
the five implemented dimensions — inclusive `Year` range, inclusive `Age`
range, and set membership of `Residence`, `Sex` and the raw `Smoker` text —
with OR within each set dimension (there is no HTN dimension). -/
theorem filter_semantics (s : FilterSel) (rows : List Row) (r : Row) :
    r ∈ filterRows s rows ↔
      r ∈ rows ∧
      (∃ y, r.year = some y ∧ s.yFrom ≤ y ∧ y ≤ s.yTo) ∧
      (∃ a, ageQ r.age = some a ∧ s.aFrom ≤ a ∧ a ≤ s.aTo) ∧
      (∃ v, r.residence = some v ∧ v ∈ s.areaSet) ∧
      (∃ g, r.sex = some g ∧ g ∈ s.genderSet) ∧
      r.smoker ∈ s.smokeSet := by
  unfold filterRows filterPred
  rw [List.mem_filter]
  simp only [Bool.and_eq_true, betweenN_iff, betweenQ_iff, inSet_iff,
    List.contains, List.elem_iff]
  tauto

theorem filter_semantics_witness : plainClean ∈ filterRows plainSel [plainClean] :=
  (filter_semantics plainSel [plainClean] plainClean).mpr
    ⟨List.mem_singleton.mpr rfl,
     ⟨2021, rfl, le_refl 2021, le_refl 2021⟩,
     ⟨60, rfl, by decide, by decide⟩,
     ⟨"South", rfl, by decide⟩,
     ⟨"F", rfl, by decide⟩,
     by decide⟩

theorem betweenN_mono {x : Option Nat} {lo hi lo' hi' : Nat}
    (hlo : lo ≤ lo') (hhi : hi' ≤ hi) (h : betweenN x lo' hi' = true) :
    betweenN x lo hi = true := by
  cases x with
  | none => simp [betweenN] at h
  | some v =>
    simp only [betweenN, Bool.and_eq_true, decide_eq_true_eq] at h ⊢
    omega

theorem betweenQ_mono {x : Option ℚ} {lo hi lo' hi' : ℚ}
    (hlo : lo ≤ lo') (hhi : hi' ≤ hi) (h : betweenQ x lo' hi' = true) :
    betweenQ x lo hi = true := by
  cases x with
  | none => simp [betweenQ] at h
  | some v =>
    simp only [betweenQ, Bool.and_eq_true, decide_eq_true_eq] at h ⊢
    exact ⟨le_trans hlo h.1, le_trans h.2 hhi⟩

theorem contains_mono {v : String} {s t : List String}
    (hsub : ∀ a ∈ t, a ∈ s) (h : t.contains v = true) :
    s.contains v = true := by
  simp only [List.contains, List.elem_iff] at h ⊢
  exact hsub v h

theorem inSet_mono {x : Option String} {s t : List String}
    (hsub : ∀ a ∈ t, a ∈ s) (h : inSet x t = true) : inSet x s = true := by
  cases x with
  | none => simp [inSet] at h
  | some v => exact contains_mono hsub h

/-- C9: narrowing the filter selection — raising `yFrom`/`aFrom`, lowering
`yTo`/`aTo`, or removing values from any of the three sets — never
increases the number of filtered rows.  The claim's "one dimension
narrowed, others equal" is the special case in which all but one hypothesis
holds by reflexivity. -/
theorem filter_monotone (rows : List Row) (s t : FilterSel)
    (hy1 : s.yFrom ≤ t.yFrom) (hy2 : t.yTo ≤ s.yTo)
    (har : ∀ x ∈ t.areaSet, x ∈ s.areaSet)
    (hg : ∀ x ∈ t.genderSet, x ∈ s.genderSet)
    (hs : ∀ x ∈ t.smokeSet, x ∈ s.smokeSet)
    (ha1 : s.aFrom ≤ t.aFrom) (ha2 : t.aTo ≤ s.aTo) :
    (filterRows t rows).length ≤ (filterRows s rows).length := by
  refine List.Sublist.length_le (List.monotone_filter_right rows ?_)
  intro r hr
  unfold filterPred at hr ⊢
  simp only [Bool.and_eq_true, and_assoc] at hr ⊢
  obtain ⟨h1, h2, h3, h4, h5⟩ := hr
  exact ⟨betweenN_mono hy1 hy2 h1, inSet_mono har h2, inSet_mono hg h3,
    contains_mono hs h4, betweenQ_mono ha1 ha2 h5⟩

theorem filter_monotone_witness :
    (filterRows ⟨2021, 2021, ["South"], ["F"], ["yes"], 50, 70⟩
        [plainClean]).length ≤
    (filterRows plainSel [plainClean]).length :=
  filter_monotone [plainClean] plainSel
    ⟨2021, 2021, ["South"], ["F"], ["yes"], 50, 70⟩
    (le_refl 2021) (le_refl 2021) (by decide) (by decide) (by decide)
    (by decide) (by decide)

/-- The cleaned one-row table of the spec's empty-result scenario, and the
selection `sex_set = {"F"}` with every other dimension left wide. -/
def emptySel : FilterSel := ⟨2020, 2020, ["North"], ["F"], ["yes", "no"], 0, 120⟩

/-- C2 (divergence): filtering the one-row cleaned table down to zero rows
makes each KPI metric render the string `"nan"` — the raw formatting of the
NaN that `Series.mean()` returns on an empty series — rather than any
explicit "no data" indicator.  (No computation raises: the model functions
are total, as are the library calls they embed.) -/
theorem kpi_empty_renders_nan :
    filterRows emptySel [cleanRow1] = [] ∧
    kpiSmokersPct (filterRows emptySel [cleanRow1]) = "nan" ∧
    kpiHTNPct (filterRows emptySel [cleanRow1]) = "nan" ∧
    kpiBleedingPct (filterRows emptySel [cleanRow1]) = "nan" :=
  ⟨rfl, rfl, rfl, rfl⟩
